import Mathlib

/-!
Verification development for the ori-ssh-manager SSH/SFTP core
(src/src-tauri/src/ssh.rs, src/src-tauri/src/sftp.rs).

Rust functions are shallowly embedded: pure helpers become Lean functions,
the stateful connection manager becomes explicit state passing over a
registry value, and the per-session reader thread becomes a fold over the
trace of read outcomes it observes.
-/

namespace OriSsh

/-- The union of the error variants of the `SshError` enum used by
src/src-tauri/src/ssh.rs (ConnectionFailed, IoError, SessionNotFound,
PtyError) and by src/src-tauri/src/sftp.rs (which additionally uses
ChannelError). -/
inductive SshError where
  | ConnectionFailed (msg : String)
  | IoError (msg : String)
  | SessionNotFound (id : String)
  | PtyError (msg : String)
  | ChannelError (msg : String)
deriving DecidableEq

/-- The name of an error's kind, one per enum variant. -/
def SshError.kindName : SshError → String
  | .ConnectionFailed _ => "ConnectionFailed"
  | .IoError _ => "IoError"
  | .SessionNotFound _ => "SessionNotFound"
  | .PtyError _ => "PtyError"
  | .ChannelError _ => "ChannelError"

/-- Embedding of `format_permissions` (src/src-tauri/src/sftp.rs lines 32-51):
nine `String::push` calls, one per permission bit, in source order. -/
def format_permissions (perm : Nat) : String :=
  String.mk
    [ if perm &&& 0o400 ≠ 0 then 'r' else '-',
      if perm &&& 0o200 ≠ 0 then 'w' else '-',
      if perm &&& 0o100 ≠ 0 then 'x' else '-',
      if perm &&& 0o040 ≠ 0 then 'r' else '-',
      if perm &&& 0o020 ≠ 0 then 'w' else '-',
      if perm &&& 0o010 ≠ 0 then 'x' else '-',
      if perm &&& 0o004 ≠ 0 then 'r' else '-',
      if perm &&& 0o002 ≠ 0 then 'w' else '-',
      if perm &&& 0o001 ≠ 0 then 'x' else '-' ]

/-- The `permissions` field of a listed entry
(src/src-tauri/src/sftp.rs lines 112-114): `stat.perm` formatted when
present, `"---------"` when the mode is unavailable. -/
def permissionsField (perm : Option Nat) : String :=
  match perm with
  | some p => format_permissions p
  | none => "---------"

/-- Statement-side helper: the character a permission bit contributes,
`c` when bit `i` of `m` is set, `'-'` otherwise. -/
def bitChar (m i : Nat) (c : Char) : Char :=
  if m.testBit i then c else '-'

/-- Statement-side decoder reading a 9-character rwx string back to the
mode bits it encodes. -/
def decodePerm (s : String) : Nat :=
  match s.data with
  | [a1, a2, a3, a4, a5, a6, a7, a8, a9] =>
    (if a1 = 'r' then 0o400 else 0) + (if a2 = 'w' then 0o200 else 0) +
    (if a3 = 'x' then 0o100 else 0) + (if a4 = 'r' then 0o040 else 0) +
    (if a5 = 'w' then 0o020 else 0) + (if a6 = 'x' then 0o010 else 0) +
    (if a7 = 'r' then 0o004 else 0) + (if a8 = 'w' then 0o002 else 0) +
    (if a9 = 'x' then 0o001 else 0)
  | _ => 0

/-- Embedding of `path.trim_end_matches('/')` on the character list of a
path (src/src-tauri/src/sftp.rs line 55): remove every trailing slash. -/
def trimEndSlashes (l : List Char) : List Char :=
  (l.reverse.dropWhile (fun c => c == '/')).reverse

/-- Embedding of `path.rfind('/')` (src/src-tauri/src/sftp.rs line 60):
index of the last slash, if any. -/
def rfindSlash : List Char → Option Nat
  | [] => none
  | c :: cs =>
    match rfindSlash cs with
    | some j => some (j + 1)
    | none => if c == '/' then some 0 else none

/-- Embedding of `get_parent_path` (src/src-tauri/src/sftp.rs lines 54-65):
trim trailing slashes; empty or root has no parent; otherwise branch on
the position of the last slash. -/
def get_parent_path (path : String) : Option String :=
  let p := trimEndSlashes path.data
  if p = [] ∨ p = ['/'] then none
  else
    match rfindSlash p with
    | some 0 => some "/"
    | some idx => some (String.mk (p.take idx))
    | none => some "/"

/-- Per-session state the registry stores that matters here: the shared
`is_connected` flag (src/src-tauri/src/ssh.rs lines 40, 167, 265). -/
structure Session where
  alive : Bool
deriving DecidableEq

/-- The `channels` registry of `SshManager` (src/src-tauri/src/ssh.rs line 44):
a map from channel id to session, embedded as an association list whose
keys a HashMap keeps unique. -/
abbrev Registry := List (String × Session)

/-- Lookup in the registry, as `channels.get(channel_id)` does. -/
def lookupSession (reg : Registry) (id : String) : Option Session :=
  match reg.find? (fun p => p.1 == id) with
  | some p => some p.2
  | none => none

/-- Embedding of `SshManager::disconnect` (src/src-tauri/src/ssh.rs lines
405-428): `channels.remove(channel_id)` removes the entry when present (the
removed session's flag is cleared and its channel closed best-effort, state
that leaves the registry with the entry); when absent nothing happens; the
function returns `Ok(())` unconditionally. -/
def disconnect (reg : Registry) (id : String) : Registry × Except SshError Unit :=
  match reg.find? (fun p => p.1 == id) with
  | some _ => (reg.eraseP (fun p => p.1 == id), Except.ok ())
  | none => (reg, Except.ok ())

/-- One outcome of a reader-loop iteration, as matched by the reader thread
(src/src-tauri/src/ssh.rs lines 292-333), plus `disconnectFlag` for the
moment `disconnect` (line 409) clears the shared `is_connected` flag
between two iterations. -/
inductive ReadEvent where
  | chunk (data : String)
  | zeroEof
  | zeroNoEof
  | wouldBlock
  | interrupted
  | fatalError
  | disconnectFlag
deriving DecidableEq

/-- An event emitted to the Tauri event sink by the reader thread. -/
inductive PtyEvent where
  | ptyOutput (id : String) (data : String)
  | ptyClosed (id : String)
deriving DecidableEq

/-- Embedding of the reader-thread loop (src/src-tauri/src/ssh.rs lines
280-334) over the trace of outcomes it observes: check the `is_connected`
flag, then match the read result; EOF and fatal errors emit `pty_closed`
once and break; `Ok(n)` emits `pty_output`; would-block, zero-without-EOF
and interrupted continue. `disconnectFlag` clears the flag for the
remaining iterations. -/
def readerPump (id : String) : Bool → List ReadEvent → List PtyEvent
  | _, [] => []
  | _, ReadEvent.disconnectFlag :: rest => readerPump id false rest
  | false, _ :: _ => []
  | true, ReadEvent.chunk d :: rest => PtyEvent.ptyOutput id d :: readerPump id true rest
  | true, ReadEvent.zeroEof :: _ => [PtyEvent.ptyClosed id]
  | true, ReadEvent.zeroNoEof :: rest => readerPump id true rest
  | true, ReadEvent.wouldBlock :: rest => readerPump id true rest
  | true, ReadEvent.interrupted :: rest => readerPump id true rest
  | true, ReadEvent.fatalError :: _ => [PtyEvent.ptyClosed id]

/-- How many `pty_closed` events a trace of emissions contains. -/
def countClosed (evs : List PtyEvent) : Nat :=
  evs.countP (fun e => match e with | PtyEvent.ptyClosed _ => true | _ => false)

/-- The state the EOF branch of the reader thread can touch. -/
structure PumpObsState where
  registry : Registry
  alive : Bool
  emitted : List PtyEvent

/-- Embedding of the EOF branch of the reader thread (src/src-tauri/src/ssh.rs
lines 300-305): set the shared flag false, emit `pty_closed`, break out of
the loop. `self.channels` is not accessible to the thread and is not
touched. -/
def readerEofBranch (id : String) (s : PumpObsState) : PumpObsState :=
  { registry := s.registry
    alive := false
    emitted := s.emitted ++ [PtyEvent.ptyClosed id] }

/-- One observable step `SshManager::connect` / `create_session` performs,
in source order (src/src-tauri/src/ssh.rs lines 54-348).
`directTcpipChannel` is the step a `channel_direct_tcpip` call would be;
the source never performs it. -/
inductive ConnectStep where
  | tcpConnect (host : String) (port : Nat) (timeoutMs : Nat)
  | setReadTimeoutMs (ms : Nat)
  | setWriteTimeoutMs (ms : Nat)
  | setNodelay (b : Bool)
  | handshake
  | authPassword (user pass : String)
  | checkAuthenticated
  | channelSession
  | requestPty (term : String) (cols rows : Nat)
  | startShell
  | sleepMs (ms : Nat)
  | shellWrite (data : String)
  | directTcpipChannel (host : String) (port : Nat)
  | setBlocking (b : Bool)
  | spawnReaderThread
  | registryInsert
deriving DecidableEq

/-- Embedding of `SshManager::create_session` (src/src-tauri/src/ssh.rs lines
54-87) as the ordered list of steps it performs: TCP connect with a 30s
timeout, 30s read timeout, 30s write timeout, TCP_NODELAY, handshake,
password auth, authenticated check. -/
def create_session_steps (host : String) (port : Nat) (user pass : String) :
    List ConnectStep :=
  [ ConnectStep.tcpConnect host port 30000,
    ConnectStep.setReadTimeoutMs 30000,
    ConnectStep.setWriteTimeoutMs 30000,
    ConnectStep.setNodelay true,
    ConnectStep.handshake,
    ConnectStep.authPassword user pass,
    ConnectStep.checkAuthenticated ]

/-- The parameters `SshManager::connect` receives
(src/src-tauri/src/ssh.rs lines 89-102). -/
structure ConnectParams where
  host : String
  port : Nat
  username : String
  password : String
  jump_host : Option String
  jump_port : Option Nat
  jump_username : Option String
  jump_password : Option String
  cols : Option Nat
  rows : Option Nat

/-- The command `connect` writes into the bastion's shell on the jump-host
path (src/src-tauri/src/ssh.rs lines 142-145). -/
def sshJumpCommand (port : Nat) (user host : String) : String :=
  "ssh -o StrictHostKeyChecking=no -o UserKnownHostsFile=/dev/null -p "
    ++ toString port ++ " " ++ user ++ "@" ++ host ++ "\n"

/-- Embedding of `SshManager::connect` (src/src-tauri/src/ssh.rs lines
89-348) as the ordered list of steps it performs. With a jump host it
authenticates to the bastion, opens a shell channel with a PTY there,
sleeps, writes an `ssh` command and then the target password into that
shell, and registers the bastion shell as the session; without one it
authenticates to the target directly and opens the PTY shell there. -/
def connect_steps (p : ConnectParams) : List ConnectStep :=
  let cols := p.cols.getD 80
  let rows := p.rows.getD 24
  match p.jump_host with
  | some jhost =>
    let jport := p.jump_port.getD 22
    let juser := p.jump_username.getD p.username
    let jpass := p.jump_password.getD p.password
    create_session_steps jhost jport juser jpass ++
    [ ConnectStep.channelSession,
      ConnectStep.requestPty "xterm-256color" cols rows,
      ConnectStep.startShell,
      ConnectStep.sleepMs 500,
      ConnectStep.shellWrite (sshJumpCommand p.port p.username p.host),
      ConnectStep.sleepMs 1500,
      ConnectStep.shellWrite (p.password ++ "\n"),
      ConnectStep.sleepMs 1000,
      ConnectStep.setBlocking false,
      ConnectStep.spawnReaderThread,
      ConnectStep.registryInsert ]
  | none =>
    create_session_steps p.host p.port p.username p.password ++
    [ ConnectStep.channelSession,
      ConnectStep.requestPty "xterm-256color" cols rows,
      ConnectStep.startShell,
      ConnectStep.setBlocking false,
      ConnectStep.spawnReaderThread,
      ConnectStep.registryInsert ]

/-- Recognizer for a direct-tcpip tunnel step. -/
def isDirectTcpip : ConnectStep → Bool
  | ConnectStep.directTcpipChannel _ _ => true
  | _ => false

/-- Recognizer for a shell write of the given data. -/
def isShellWrite (data : String) : ConnectStep → Bool
  | ConnectStep.shellWrite d => d == data
  | _ => false

/-- Recognizer for setting the given read timeout. -/
def isSetReadTimeout (ms : Nat) : ConnectStep → Bool
  | ConnectStep.setReadTimeoutMs m => m == ms
  | _ => false

/-- Recognizer for setting the given write timeout. -/
def isSetWriteTimeout (ms : Nat) : ConnectStep → Bool
  | ConnectStep.setWriteTimeoutMs m => m == ms
  | _ => false

/-- Recognizer for enabling TCP_NODELAY. -/
def isSetNodelayTrue : ConnectStep → Bool
  | ConnectStep.setNodelay b => b
  | _ => false

/-- Recognizer for the SSH handshake step. -/
def isHandshake : ConnectStep → Bool
  | ConnectStep.handshake => true
  | _ => false

/-- How the server responds to the auth portion of `create_session`. -/
structure ServerBehavior where
  acceptsPassword : Bool
  reportsAuthenticated : Bool
deriving DecidableEq

/-- Embedding of the auth portion of `create_session`
(src/src-tauri/src/ssh.rs lines 78-86): a `userauth_password` error maps to
`ConnectionFailed`, and a session that does not report authenticated also
yields `ConnectionFailed`. -/
def create_session_auth (sv : ServerBehavior) : Except SshError Unit :=
  if !sv.acceptsPassword then
    Except.error (SshError.ConnectionFailed "Authentication failed: rejected by server")
  else if !sv.reportsAuthenticated then
    Except.error (SshError.ConnectionFailed "Authentication failed")
  else
    Except.ok ()

/-- The environment a `sftp_download` call runs against: whether the remote
open and the local create succeed, the successive outcomes of
`remote_file.read` (a chunk of bytes, `[]` meaning EOF, or an error), and
whether the i-th local `write_all` succeeds. -/
structure DownloadEnv where
  openRemoteOk : Bool
  createLocalOk : Bool
  reads : List (Except String (List Nat))
  writeOk : Nat → Bool

/-- Embedding of the copy loop of `sftp_download`
(src/src-tauri/src/sftp.rs lines 161-173): a read error maps to `IoError`,
a zero-length read breaks returning the running total, a failed local
write maps to `IoError`; the second component is the local file's bytes. -/
def sftp_download_loop (writeOk : Nat → Bool) :
    List (Except String (List Nat)) → Nat → List Nat → Nat →
    Except SshError Nat × List Nat
  | [], _, file, total => (Except.ok total, file)
  | Except.error e :: _, _, file, _ => (Except.error (SshError.IoError e), file)
  | Except.ok chunk :: rest, i, file, total =>
    if chunk = [] then (Except.ok total, file)
    else if writeOk i then
      sftp_download_loop writeOk rest (i + 1) (file ++ chunk) (total + chunk.length)
    else (Except.error (SshError.IoError "local write failed"), file)

/-- Embedding of `sftp_download` (src/src-tauri/src/sftp.rs lines 146-176):
open the remote file (`ChannelError` on failure), create the local file
(`IoError` on failure), then run the copy loop. The second component is
the local file's final contents, `none` when it was never created. -/
def sftp_download (env : DownloadEnv) : Except SshError Nat × Option (List Nat) :=
  if !env.openRemoteOk then
    (Except.error (SshError.ChannelError "Failed to open remote file"), none)
  else if !env.createLocalOk then
    (Except.error (SshError.IoError "failed to create local file"), none)
  else
    let r := sftp_download_loop env.writeOk env.reads 0 [] 0
    (r.1, some r.2)

/-- The fields of `FileEntry` (src/src-tauri/src/sftp.rs lines 13-21). -/
structure FileEntry where
  name : String
  path : String
  is_dir : Bool
  is_symlink : Bool
  size : Nat
  permissions : String
  modified : Option Int
deriving DecidableEq

/-- Rust's `Ord::cmp` on strings, lexicographic. -/
def strCmp (a b : String) : Ordering :=
  if a < b then Ordering.lt else if a = b then Ordering.eq else Ordering.gt

/-- Embedding of the comparator passed to `entries.sort_by`
(src/src-tauri/src/sftp.rs lines 130-136): directories first, then
case-insensitive name comparison. -/
def entriesCmp (a b : FileEntry) : Ordering :=
  match a.is_dir, b.is_dir with
  | true, false => Ordering.lt
  | false, true => Ordering.gt
  | _, _ => strCmp a.name.toLower b.name.toLower

/-- The not-greater relation induced by the comparator; `sort_by` orders
its output by exactly this relation. -/
def entriesLe (a b : FileEntry) : Bool :=
  !(entriesCmp a b == Ordering.gt)

/-- Embedding of the sort `sftp_list_dir` applies to its entries
(src/src-tauri/src/sftp.rs lines 129-136): a stable sort by the
comparator. -/
def sortEntries (l : List FileEntry) : List FileEntry :=
  l.mergeSort entriesLe

/-! ## Theorems -/

theorem land_two_pow_ne_zero (m i : Nat) : (m &&& 2 ^ i ≠ 0) ↔ m.testBit i := by
  rw [Nat.and_two_pow]
  cases h : m.testBit i <;> simp [h]

theorem format_permissions_data (m : Nat) :
    (format_permissions m).data =
      [bitChar m 8 'r', bitChar m 7 'w', bitChar m 6 'x',
       bitChar m 5 'r', bitChar m 4 'w', bitChar m 3 'x',
       bitChar m 2 'r', bitChar m 1 'w', bitChar m 0 'x'] := by
  have h8 : (m &&& 256 ≠ 0) ↔ m.testBit 8 := by
    rw [show (256 : Nat) = 2 ^ 8 by norm_num]; exact land_two_pow_ne_zero m 8
  have h7 : (m &&& 128 ≠ 0) ↔ m.testBit 7 := by
    rw [show (128 : Nat) = 2 ^ 7 by norm_num]; exact land_two_pow_ne_zero m 7
  have h6 : (m &&& 64 ≠ 0) ↔ m.testBit 6 := by
    rw [show (64 : Nat) = 2 ^ 6 by norm_num]; exact land_two_pow_ne_zero m 6
  have h5 : (m &&& 32 ≠ 0) ↔ m.testBit 5 := by
    rw [show (32 : Nat) = 2 ^ 5 by norm_num]; exact land_two_pow_ne_zero m 5
  have h4 : (m &&& 16 ≠ 0) ↔ m.testBit 4 := by
    rw [show (16 : Nat) = 2 ^ 4 by norm_num]; exact land_two_pow_ne_zero m 4
  have h3 : (m &&& 8 ≠ 0) ↔ m.testBit 3 := by
    rw [show (8 : Nat) = 2 ^ 3 by norm_num]; exact land_two_pow_ne_zero m 3
  have h2 : (m &&& 4 ≠ 0) ↔ m.testBit 2 := by
    rw [show (4 : Nat) = 2 ^ 2 by norm_num]; exact land_two_pow_ne_zero m 2
  have h1 : (m &&& 2 ≠ 0) ↔ m.testBit 1 := by
    rw [show (2 : Nat) = 2 ^ 1 by norm_num]; exact land_two_pow_ne_zero m 1
  have h0 : (m &&& 1 ≠ 0) ↔ m.testBit 0 := by
    rw [show (1 : Nat) = 2 ^ 0 by norm_num]; exact land_two_pow_ne_zero m 0
  simp only [format_permissions, bitChar, h8, h7, h6, h5, h4, h3, h2, h1, h0]

theorem format_permissions_mod512 (m : Nat) :
    format_permissions m = format_permissions (m % 512) := by
  have hd : ∀ i, i < 9 → (m % 512).testBit i = m.testBit i := by
    intro i hi
    have h9 : (512 : Nat) = 2 ^ 9 := by norm_num
    rw [h9, Nat.testBit_mod_two_pow]
    simp [hi]
  have h1 := format_permissions_data m
  have h2 := format_permissions_data (m % 512)
  calc format_permissions m
      = String.mk ((format_permissions m).data) := rfl
    _ = String.mk ((format_permissions (m % 512)).data) := by
        rw [h1, h2]
        simp only [bitChar, hd 8 (by norm_num), hd 7 (by norm_num),
          hd 6 (by norm_num), hd 5 (by norm_num), hd 4 (by norm_num),
          hd 3 (by norm_num), hd 2 (by norm_num), hd 1 (by norm_num),
          hd 0 (by norm_num)]
    _ = format_permissions (m % 512) := rfl

set_option maxRecDepth 4096 in
theorem decodePerm_format_permissions : ∀ m < 512, decodePerm (format_permissions m) = m := by
  decide

/-- C7: `format_permissions m` is the 9-character string whose characters
follow, in order, the bits 0o400 … 0o001 of `m` (`r`/`w`/`x` when set,
`-` otherwise); it only depends on the low 9 bits, it is injective on
`0..512`, and a missing mode renders as `"---------"`. -/
theorem c7_format_permissions :
    (∀ m : Nat, (format_permissions m).length = 9) ∧
    (∀ m : Nat, (format_permissions m).data =
       [bitChar m 8 'r', bitChar m 7 'w', bitChar m 6 'x',
        bitChar m 5 'r', bitChar m 4 'w', bitChar m 3 'x',
        bitChar m 2 'r', bitChar m 1 'w', bitChar m 0 'x']) ∧
    (∀ m : Nat, format_permissions m = format_permissions (m % 512)) ∧
    (∀ a b : Nat, a < 512 → b < 512 →
       format_permissions a = format_permissions b → a = b) ∧
    permissionsField none = "---------" := by
  refine ⟨fun _ => rfl, format_permissions_data, format_permissions_mod512, ?_, rfl⟩
  intro a b ha hb hab
  have h1 := decodePerm_format_permissions a ha
  have h2 := decodePerm_format_permissions b hb
  rw [← h1, ← h2, hab]

/-- C7 witness: the injectivity part applied at the concrete mode 420
(octal 644), with both bounds discharged by decide. -/
theorem c7_format_permissions_witness : (420 : Nat) = 420 :=
  c7_format_permissions.2.2.2.1 420 420 (by decide) (by decide) rfl

theorem trimEndSlashes_eq_self (l : List Char) (h : ∀ c ∈ l, c ≠ '/') :
    trimEndSlashes l = l := by
  have hd : l.reverse.dropWhile (fun c => c == '/') = l.reverse := by
    cases hr : l.reverse with
    | nil => rfl
    | cons a as =>
      have ha : a ∈ l := by
        rw [← List.mem_reverse, hr]; exact List.mem_cons_self a as
      have hne : (a == '/') = false := beq_eq_false_iff_ne.mpr (h a ha)
      simp [List.dropWhile_cons, hne]
  unfold trimEndSlashes
  rw [hd, List.reverse_reverse]

theorem rfindSlash_none (l : List Char) (h : ∀ c ∈ l, c ≠ '/') :
    rfindSlash l = none := by
  induction l with
  | nil => rfl
  | cons a as ih =>
    have has : ∀ c ∈ as, c ≠ '/' := fun c hc => h c (List.mem_cons_of_mem a hc)
    have hne : (a == '/') = false :=
      beq_eq_false_iff_ne.mpr (h a (List.mem_cons_self a as))
    simp [rfindSlash, ih has, hne]

theorem get_parent_path_no_slash (l : List Char) (hne : l ≠ [])
    (h : ∀ c ∈ l, c ≠ '/') : get_parent_path (String.mk l) = some "/" := by
  have ht : trimEndSlashes (String.mk l).data = l := trimEndSlashes_eq_self l h
  have hcond : ¬(l = [] ∨ l = ['/']) := by
    rintro (rfl | rfl)
    · exact hne rfl
    · exact h '/' (by simp) rfl
  unfold get_parent_path
  simp only [ht]
  rw [rfindSlash_none l h, if_neg hcond]

/-- C8: the parent-path computation: no parent for `""` or `"/"`; parent of
`"/a"` is `"/"`, of `"/a/b"` is `"/a"`, of `"/a/b/"` is `"/a"`, of a bare
name is `"/"`; and in general any nonempty path without a slash has
parent `"/"`. -/
theorem c8_get_parent_path :
    get_parent_path "" = none ∧
    get_parent_path "/" = none ∧
    get_parent_path "/a" = some "/" ∧
    get_parent_path "/a/b" = some "/a" ∧
    get_parent_path "/a/b/" = some "/a" ∧
    get_parent_path "a" = some "/" ∧
    (∀ l : List Char, l ≠ [] → (∀ c ∈ l, c ≠ '/') →
       get_parent_path (String.mk l) = some "/") := by
  refine ⟨by decide, by decide, by decide, by decide, by decide, by decide, ?_⟩
  exact get_parent_path_no_slash

/-- C8 witness: the general no-slash clause applied at the concrete path
`"usr"`. -/
theorem c8_get_parent_path_witness : get_parent_path (String.mk ['u', 's', 'r']) = some "/" :=
  c8_get_parent_path.2.2.2.2.2.2 ['u', 's', 'r'] (by decide) (by decide)

theorem countClosed_nil : countClosed [] = 0 := rfl

theorem countClosed_output (id d : String) (l : List PtyEvent) :
    countClosed (PtyEvent.ptyOutput id d :: l) = countClosed l := by
  simp [countClosed, List.countP_cons]

theorem countClosed_closed (id : String) (l : List PtyEvent) :
    countClosed (PtyEvent.ptyClosed id :: l) = countClosed l + 1 := by
  simp [countClosed, List.countP_cons]

theorem readerPump_countClosed_le_one (id : String) :
    ∀ (tr : List ReadEvent) (alive : Bool), countClosed (readerPump id alive tr) ≤ 1 := by
  intro tr
  induction tr with
  | nil => intro alive; simp [readerPump, countClosed_nil]
  | cons e rest ih =>
    intro alive
    cases e <;> cases alive <;>
      simp [readerPump, countClosed_nil, countClosed_output, countClosed_closed] <;>
      exact ih _

theorem readerPump_countClosed_eq_one (id : String) :
    ∀ (tr : List ReadEvent), ReadEvent.disconnectFlag ∉ tr →
      (ReadEvent.zeroEof ∈ tr ∨ ReadEvent.fatalError ∈ tr) →
      countClosed (readerPump id true tr) = 1 := by
  intro tr
  induction tr with
  | nil =>
    intro _ hmem
    rcases hmem with h | h <;> simp at h
  | cons e rest ih =>
    intro hnd hmem
    have hnd' : ReadEvent.disconnectFlag ∉ rest :=
      fun h => hnd (List.mem_cons_of_mem _ h)
    cases e with
    | disconnectFlag => exact absurd (List.mem_cons_self _ _) hnd
    | zeroEof => simp [readerPump, countClosed_closed, countClosed_nil]
    | fatalError => simp [readerPump, countClosed_closed, countClosed_nil]
    | chunk d =>
      have hmem' : ReadEvent.zeroEof ∈ rest ∨ ReadEvent.fatalError ∈ rest := by
        rcases hmem with h | h
        · exact Or.inl (by simpa using h)
        · exact Or.inr (by simpa using h)
      rw [show readerPump id true (ReadEvent.chunk d :: rest)
            = PtyEvent.ptyOutput id d :: readerPump id true rest from rfl,
        countClosed_output]
      exact ih hnd' hmem'
    | zeroNoEof =>
      have hmem' : ReadEvent.zeroEof ∈ rest ∨ ReadEvent.fatalError ∈ rest := by
        rcases hmem with h | h
        · exact Or.inl (by simpa using h)
        · exact Or.inr (by simpa using h)
      rw [show readerPump id true (ReadEvent.zeroNoEof :: rest)
            = readerPump id true rest from rfl]
      exact ih hnd' hmem'
    | wouldBlock =>
      have hmem' : ReadEvent.zeroEof ∈ rest ∨ ReadEvent.fatalError ∈ rest := by
        rcases hmem with h | h
        · exact Or.inl (by simpa using h)
        · exact Or.inr (by simpa using h)
      rw [show readerPump id true (ReadEvent.wouldBlock :: rest)
            = readerPump id true rest from rfl]
      exact ih hnd' hmem'
    | interrupted =>
      have hmem' : ReadEvent.zeroEof ∈ rest ∨ ReadEvent.fatalError ∈ rest := by
        rcases hmem with h | h
        · exact Or.inl (by simpa using h)
        · exact Or.inr (by simpa using h)
      rw [show readerPump id true (ReadEvent.interrupted :: rest)
            = readerPump id true rest from rfl]
      exact ih hnd' hmem'

theorem readerPump_false_eq_nil (id : String) :
    ∀ tr : List ReadEvent, readerPump id false tr = [] := by
  intro tr
  induction tr with
  | nil => rfl
  | cons e rest ih =>
    cases e with
    | disconnectFlag =>
      rw [show readerPump id false (ReadEvent.disconnectFlag :: rest)
          = readerPump id false rest from rfl]
      exact ih
    | chunk d => rfl
    | zeroEof => rfl
    | zeroNoEof => rfl
    | wouldBlock => rfl
    | interrupted => rfl
    | fatalError => rfl

theorem readerPump_zero_when_disconnected (id : String) :
    ∀ (pre rest : List ReadEvent),
      ReadEvent.zeroEof ∉ pre → ReadEvent.fatalError ∉ pre →
      countClosed (readerPump id true (pre ++ ReadEvent.disconnectFlag :: rest)) = 0 := by
  intro pre
  induction pre with
  | nil =>
    intro rest _ _
    rw [List.nil_append,
      show readerPump id true (ReadEvent.disconnectFlag :: rest)
        = readerPump id false rest from rfl,
      readerPump_false_eq_nil id rest]
    rfl
  | cons e pre' ih =>
    intro rest hz hf
    have hz' : ReadEvent.zeroEof ∉ pre' := fun h => hz (List.mem_cons_of_mem _ h)
    have hf' : ReadEvent.fatalError ∉ pre' := fun h => hf (List.mem_cons_of_mem _ h)
    cases e with
    | zeroEof => exact absurd (List.mem_cons_self _ _) hz
    | fatalError => exact absurd (List.mem_cons_self _ _) hf
    | disconnectFlag =>
      rw [List.cons_append,
        show readerPump id true
            (ReadEvent.disconnectFlag :: (pre' ++ ReadEvent.disconnectFlag :: rest))
          = readerPump id false (pre' ++ ReadEvent.disconnectFlag :: rest) from rfl,
        readerPump_false_eq_nil]
      rfl
    | chunk d =>
      rw [List.cons_append,
        show readerPump id true
            (ReadEvent.chunk d :: (pre' ++ ReadEvent.disconnectFlag :: rest))
          = PtyEvent.ptyOutput id d
              :: readerPump id true (pre' ++ ReadEvent.disconnectFlag :: rest) from rfl,
        countClosed_output]
      exact ih rest hz' hf'
    | zeroNoEof =>
      rw [List.cons_append,
        show readerPump id true
            (ReadEvent.zeroNoEof :: (pre' ++ ReadEvent.disconnectFlag :: rest))
          = readerPump id true (pre' ++ ReadEvent.disconnectFlag :: rest) from rfl]
      exact ih rest hz' hf'
    | wouldBlock =>
      rw [List.cons_append,
        show readerPump id true
            (ReadEvent.wouldBlock :: (pre' ++ ReadEvent.disconnectFlag :: rest))
          = readerPump id true (pre' ++ ReadEvent.disconnectFlag :: rest) from rfl]
      exact ih rest hz' hf'
    | interrupted =>
      rw [List.cons_append,
        show readerPump id true
            (ReadEvent.interrupted :: (pre' ++ ReadEvent.disconnectFlag :: rest))
          = readerPump id true (pre' ++ ReadEvent.disconnectFlag :: rest) from rfl]
      exact ih rest hz' hf'

/-- C1 counterexample: when `disconnect` clears the shared flag before the
reader's next iteration and the reader never observes EOF itself, the
pump exits without emitting `pty_closed` at all, so a session that ends
via disconnect can see zero emissions, not exactly one. -/
theorem c1_counterexample :
    readerPump "c1" true [ReadEvent.disconnectFlag, ReadEvent.zeroEof] = [] ∧
    countClosed (readerPump "c1" true [ReadEvent.disconnectFlag, ReadEvent.zeroEof]) = 0 :=
  ⟨rfl, rfl⟩

/-- C1 (amended): over every trace the reader pump emits `pty_closed` at
most once; it emits exactly once when it observes EOF or a fatal read
error without `disconnect` having cleared the flag; and it emits zero
times on every trace where `disconnect` clears the flag before the pump
has observed EOF or a fatal read error. -/
theorem c1_pty_closed_at_most_once :
    (∀ (id : String) (alive : Bool) (tr : List ReadEvent),
       countClosed (readerPump id alive tr) ≤ 1) ∧
    (∀ (id : String) (tr : List ReadEvent),
       ReadEvent.disconnectFlag ∉ tr →
       (ReadEvent.zeroEof ∈ tr ∨ ReadEvent.fatalError ∈ tr) →
       countClosed (readerPump id true tr) = 1) ∧
    (∀ (id : String) (pre rest : List ReadEvent),
       ReadEvent.zeroEof ∉ pre → ReadEvent.fatalError ∉ pre →
       countClosed (readerPump id true (pre ++ ReadEvent.disconnectFlag :: rest)) = 0) :=
  ⟨fun id alive tr => readerPump_countClosed_le_one id tr alive,
   fun id tr => readerPump_countClosed_eq_one id tr,
   fun id pre rest => readerPump_zero_when_disconnected id pre rest⟩

/-- C1 witness: a trace with one output chunk then EOF yields exactly one
`pty_closed`, and a trace where disconnect lands after one chunk and
before any EOF yields zero. -/
theorem c1_pty_closed_witness :
    countClosed (readerPump "c1" true [ReadEvent.chunk "hi", ReadEvent.zeroEof]) = 1 ∧
    countClosed (readerPump "c1" true
      ([ReadEvent.chunk "hi"] ++ ReadEvent.disconnectFlag :: [ReadEvent.zeroEof])) = 0 :=
  ⟨c1_pty_closed_at_most_once.2.1 "c1" [ReadEvent.chunk "hi", ReadEvent.zeroEof]
     (by decide) (Or.inl (by decide)),
   c1_pty_closed_at_most_once.2.2 "c1" [ReadEvent.chunk "hi"] [ReadEvent.zeroEof]
     (by decide) (by decide)⟩

theorem find?_eraseP_self (reg : Registry) (id : String)
    (h : (List.map Prod.fst reg).Nodup) :
    (reg.eraseP (fun p => p.1 == id)).find? (fun p => p.1 == id) = none := by
  induction reg with
  | nil => rfl
  | cons a as ih =>
    rw [List.map_cons, List.nodup_cons] at h
    obtain ⟨hnotin, hnd⟩ := h
    by_cases ha : a.1 = id
    · have hpa : (a.1 == id) = true := beq_iff_eq.mpr ha
      rw [List.eraseP_cons, hpa]
      simp only [cond_true]
      rw [List.find?_eq_none]
      intro x hx
      have : x.1 ≠ id := by
        intro hxid
        exact hnotin (by
          rw [ha, ← hxid]
          exact List.mem_map_of_mem Prod.fst hx)
      simp [this]
    · have hpa : (a.1 == id) = false := beq_eq_false_iff_ne.mpr ha
      rw [List.eraseP_cons, hpa]
      simp only [cond_false]
      rw [List.find?_cons, hpa]
      exact ih hnd

theorem lookupSession_disconnect_self (reg : Registry) (id : String)
    (h : (List.map Prod.fst reg).Nodup) :
    lookupSession (disconnect reg id).1 id = none := by
  unfold disconnect
  cases hf : reg.find? (fun p => p.1 == id) with
  | none =>
    simp only []
    unfold lookupSession
    rw [hf]
  | some p =>
    simp only []
    unfold lookupSession
    rw [find?_eraseP_self reg id h]

/-- C5 counterexample: after the reader thread's EOF branch runs, the
session's id is still present in the registry — the branch never removes
it, contrary to the claim that the id is absent once EOF handling
completes. -/
theorem c5_counterexample :
    (readerEofBranch "c1" ⟨[("c1", ⟨true⟩)], true, []⟩).registry
      = [("c1", ⟨true⟩)] ∧
    lookupSession
      (readerEofBranch "c1" ⟨[("c1", ⟨true⟩)], true, []⟩).registry "c1"
      = some ⟨true⟩ :=
  ⟨rfl, rfl⟩

/-- C5 (amended): on EOF the reader pump clears the alive flag and emits
`pty_closed` but leaves the registry untouched; the id is removed from the
registry only by `disconnect`. -/
theorem c5_reader_eof_keeps_registry :
    (∀ (id : String) (s : PumpObsState),
       (readerEofBranch id s).registry = s.registry ∧
       (readerEofBranch id s).alive = false ∧
       (readerEofBranch id s).emitted = s.emitted ++ [PtyEvent.ptyClosed id]) ∧
    (∀ (reg : Registry) (id : String), (List.map Prod.fst reg).Nodup →
       lookupSession (disconnect reg id).1 id = none) :=
  ⟨fun _ _ => ⟨rfl, rfl, rfl⟩, lookupSession_disconnect_self⟩

/-- C5 witness: the disconnect clause applied to a concrete one-entry
registry. -/
theorem c5_reader_eof_witness :
    lookupSession (disconnect [("c1", ⟨true⟩)] "c1").1 "c1" = none :=
  c5_reader_eof_keeps_registry.2 [("c1", ⟨true⟩)] "c1" (by decide)

/-- C10: disconnecting an id that is not in the registry returns success
and leaves the registry unchanged; `disconnect` always returns success;
and on a registry with unique keys a second disconnect of the same id
succeeds and changes nothing, so disconnect is idempotent. -/
theorem c10_disconnect_idempotent :
    (∀ (reg : Registry) (id : String), lookupSession reg id = none →
       disconnect reg id = (reg, Except.ok ())) ∧
    (∀ (reg : Registry) (id : String), (disconnect reg id).2 = Except.ok ()) ∧
    (∀ (reg : Registry) (id : String), (List.map Prod.fst reg).Nodup →
       disconnect (disconnect reg id).1 id = ((disconnect reg id).1, Except.ok ())) := by
  refine ⟨?_, ?_, ?_⟩
  · intro reg id h
    unfold lookupSession at h
    unfold disconnect
    cases hf : reg.find? (fun p => p.1 == id) with
    | none => rfl
    | some p => rw [hf] at h; simp at h
  · intro reg id
    unfold disconnect
    cases hf : reg.find? (fun p => p.1 == id) with
    | none => rfl
    | some p => rfl
  · intro reg id h
    have h2 : lookupSession (disconnect reg id).1 id = none :=
      lookupSession_disconnect_self reg id h
    revert h2
    generalize (disconnect reg id).1 = reg2
    intro h2
    unfold lookupSession at h2
    unfold disconnect
    cases hf : reg2.find? (fun p => p.1 == id) with
    | none => rfl
    | some p => rw [hf] at h2; simp at h2

/-- C10 witness: disconnecting the absent id `"b"` from a concrete
registry, and a second disconnect of `"a"` after the first. -/
theorem c10_disconnect_witness :
    disconnect [("a", ⟨true⟩)] "b" = ([("a", ⟨true⟩)], Except.ok ()) ∧
    disconnect (disconnect [("a", ⟨true⟩)] "a").1 "a"
      = ((disconnect [("a", ⟨true⟩)] "a").1, Except.ok ()) :=
  ⟨c10_disconnect_idempotent.1 [("a", ⟨true⟩)] "b" rfl,
   c10_disconnect_idempotent.2.2 [("a", ⟨true⟩)] "a" (by decide)⟩

/-- C2: at a concrete jump-host input, `connect` performs zero
direct-tcpip channel opens; instead it writes an `ssh` command for the
target and then the target password into the bastion's interactive shell.
The last clause shows no input whatsoever makes it open a direct-tcpip
channel. -/
theorem c2_jump_host_shell_piping :
    ((connect_steps ⟨"10.0.0.5", 22, "u", "p", some "bastion", some 22, some "ju",
        some "jp", none, none⟩).countP isDirectTcpip = 0) ∧
    ((connect_steps ⟨"10.0.0.5", 22, "u", "p", some "bastion", some 22, some "ju",
        some "jp", none, none⟩).countP
        (isShellWrite (sshJumpCommand 22 "u" "10.0.0.5")) = 1) ∧
    ((connect_steps ⟨"10.0.0.5", 22, "u", "p", some "bastion", some 22, some "ju",
        some "jp", none, none⟩).countP (isShellWrite ("p" ++ "\n")) = 1) ∧
    (∀ p : ConnectParams, (connect_steps p).countP isDirectTcpip = 0) := by
  refine ⟨rfl, rfl, rfl, ?_⟩
  intro p
  obtain ⟨host, port, username, password, jh, jp, ju, jpw, cols, rows⟩ := p
  cases jh <;> rfl

/-- C3 counterexample: on a direct connect, `create_session` never sets a
100 ms read timeout nor a 10 s write timeout; it sets a 30 s read
timeout. -/
theorem c3_counterexample :
    ((connect_steps ⟨"h", 22, "u", "p", none, none, none, none, none, none⟩).countP
        (isSetReadTimeout 100) = 0) ∧
    ((connect_steps ⟨"h", 22, "u", "p", none, none, none, none, none, none⟩).countP
        (isSetWriteTimeout 10000) = 0) ∧
    ((connect_steps ⟨"h", 22, "u", "p", none, none, none, none, none, none⟩).countP
        (isSetReadTimeout 30000) = 1) :=
  ⟨rfl, rfl, rfl⟩

/-- C3 (amended): every session creation configures the socket with a 30 s
read timeout, a 30 s write timeout and TCP_NODELAY, each before the SSH
handshake; no connect path sets a 100 ms read timeout or a 10 s write
timeout. -/
theorem c3_socket_config :
    (∀ (host : String) (port : Nat) (user pass : String),
       (create_session_steps host port user pass).countP (isSetReadTimeout 30000) = 1 ∧
       (create_session_steps host port user pass).countP (isSetWriteTimeout 30000) = 1 ∧
       (create_session_steps host port user pass).countP isSetNodelayTrue = 1 ∧
       (create_session_steps host port user pass).findIdx (isSetReadTimeout 30000) <
         (create_session_steps host port user pass).findIdx isHandshake ∧
       (create_session_steps host port user pass).findIdx (isSetWriteTimeout 30000) <
         (create_session_steps host port user pass).findIdx isHandshake ∧
       (create_session_steps host port user pass).findIdx isSetNodelayTrue <
         (create_session_steps host port user pass).findIdx isHandshake) ∧
    (∀ p : ConnectParams,
       (connect_steps p).countP (isSetReadTimeout 100) = 0 ∧
       (connect_steps p).countP (isSetWriteTimeout 10000) = 0) := by
  constructor
  · intro host port user pass
    exact ⟨rfl, rfl, rfl, of_decide_eq_true rfl, of_decide_eq_true rfl,
      of_decide_eq_true rfl⟩
  · intro p
    obtain ⟨host, port, username, password, jh, jp, ju, jpw, cols, rows⟩ := p
    cases jh <;> exact ⟨rfl, rfl⟩

/-- C4 counterexample: when the server rejects the password, the auth
portion of `create_session` returns a `ConnectionFailed` error, whose kind
is not `AuthFailed`. -/
theorem c4_counterexample :
    create_session_auth ⟨false, false⟩
      = Except.error (SshError.ConnectionFailed "Authentication failed: rejected by server") ∧
    (SshError.ConnectionFailed "Authentication failed: rejected by server").kindName
      ≠ "AuthFailed" :=
  ⟨rfl, by decide⟩

/-- C4 (amended): a rejected password or a session that does not report
authenticated makes `create_session` fail with `ConnectionFailed`; the
`SshError` enum has no kind named `AuthFailed` at all. -/
theorem c4_auth_failure_connection_failed :
    (∀ sv : ServerBehavior,
       sv.acceptsPassword = false ∨ sv.reportsAuthenticated = false →
       ∃ msg, create_session_auth sv = Except.error (SshError.ConnectionFailed msg)) ∧
    (∀ e : SshError, e.kindName ≠ "AuthFailed") := by
  constructor
  · rintro ⟨ap, ra⟩ h
    cases ap with
    | false => exact ⟨"Authentication failed: rejected by server", rfl⟩
    | true =>
      cases ra with
      | false => exact ⟨"Authentication failed", rfl⟩
      | true => rcases h with h | h <;> simp at h
  · intro e
    cases e <;> simp [SshError.kindName]

/-- C4 witness: the failure clause applied at a server that rejects the
password. -/
theorem c4_auth_failure_witness :
    ∃ msg, create_session_auth ⟨false, true⟩
      = Except.error (SshError.ConnectionFailed msg) :=
  c4_auth_failure_connection_failed.1 ⟨false, true⟩ (Or.inl rfl)

theorem sftp_download_loop_error_io (writeOk : Nat → Bool) :
    ∀ (reads : List (Except String (List Nat))) (i : Nat) (acc : List Nat)
      (total : Nat) (e : SshError),
      (sftp_download_loop writeOk reads i acc total).1 = Except.error e →
      ∃ msg, e = SshError.IoError msg := by
  intro reads
  induction reads with
  | nil => intro i acc total e h; simp [sftp_download_loop] at h
  | cons r rest ih =>
    intro i acc total e h
    cases r with
    | error s =>
      simp [sftp_download_loop] at h
      exact ⟨s, h.symm⟩
    | ok chunk =>
      by_cases hc : chunk = []
      · simp [sftp_download_loop, hc] at h
      · by_cases hw : writeOk i
        · rw [show sftp_download_loop writeOk (Except.ok chunk :: rest) i acc total
              = sftp_download_loop writeOk rest (i + 1) (acc ++ chunk)
                  (total + chunk.length) from by
            simp [sftp_download_loop, hc, hw]] at h
          exact ih _ _ _ _ h
        · simp [sftp_download_loop, hc, hw] at h
          exact ⟨"local write failed", h.symm⟩

theorem sftp_download_loop_extends (writeOk : Nat → Bool) :
    ∀ (reads : List (Except String (List Nat))) (i : Nat) (acc : List Nat)
      (total : Nat),
      ∃ suffix, (sftp_download_loop writeOk reads i acc total).2 = acc ++ suffix := by
  intro reads
  induction reads with
  | nil => intro i acc total; exact ⟨[], by simp [sftp_download_loop]⟩
  | cons r rest ih =>
    intro i acc total
    cases r with
    | error s => exact ⟨[], by simp [sftp_download_loop]⟩
    | ok chunk =>
      by_cases hc : chunk = []
      · exact ⟨[], by simp [sftp_download_loop, hc]⟩
      · by_cases hw : writeOk i
        · obtain ⟨suf, hsuf⟩ := ih (i + 1) (acc ++ chunk) (total + chunk.length)
          refine ⟨chunk ++ suf, ?_⟩
          rw [show sftp_download_loop writeOk (Except.ok chunk :: rest) i acc total
              = sftp_download_loop writeOk rest (i + 1) (acc ++ chunk)
                  (total + chunk.length) from by
            simp [sftp_download_loop, hc, hw]]
          rw [hsuf, List.append_assoc]
        · exact ⟨[], by simp [sftp_download_loop, hc, hw]⟩

/-- C6 counterexample: a failure while reading the remote file is mapped
to `IoError`, not `ChannelError`, so a remote-side failure does not always
yield `ChannelError`. -/
theorem c6_counterexample :
    (sftp_download ⟨true, true, [Except.error "remote read failed"], fun _ => true⟩).1
      = Except.error (SshError.IoError "remote read failed") ∧
    (SshError.IoError "remote read failed").kindName ≠ "ChannelError" :=
  ⟨rfl, by simp [SshError.kindName]⟩

/-- C6 (amended): only the remote open failure yields `ChannelError`;
every other download failure (remote read, local create, local write)
yields `IoError`; and the copy loop only ever appends to the local file,
so on failure the file keeps the bytes already written (no rollback). -/
theorem c6_download_error_kinds :
    (∀ env : DownloadEnv, env.openRemoteOk = false →
       (sftp_download env).1
         = Except.error (SshError.ChannelError "Failed to open remote file")) ∧
    (∀ (env : DownloadEnv) (e : SshError), env.openRemoteOk = true →
       (sftp_download env).1 = Except.error e →
       ∃ msg, e = SshError.IoError msg) ∧
    (∀ (writeOk : Nat → Bool) (reads : List (Except String (List Nat)))
       (i : Nat) (acc : List Nat) (total : Nat),
       ∃ suffix, (sftp_download_loop writeOk reads i acc total).2 = acc ++ suffix) := by
  refine ⟨?_, ?_, sftp_download_loop_extends⟩
  · intro env h
    unfold sftp_download
    rw [h]
    rfl
  · intro env e ho h
    obtain ⟨o, c, reads, w⟩ := env
    simp only at ho
    subst ho
    cases c with
    | true =>
      simp only [sftp_download, Bool.not_true, Bool.false_eq_true, if_false] at h
      exact sftp_download_loop_error_io w reads 0 [] 0 e h
    | false =>
      simp [sftp_download] at h
      exact ⟨"failed to create local file", h.symm⟩

/-- C6 witness: the open-failure clause at a concrete environment, and the
IoError clause at an environment whose first remote read fails. -/
theorem c6_download_witness :
    (sftp_download ⟨false, true, [], fun _ => true⟩).1
      = Except.error (SshError.ChannelError "Failed to open remote file") ∧
    (∃ msg, SshError.IoError "remote read failed" = SshError.IoError msg) :=
  ⟨c6_download_error_kinds.1 ⟨false, true, [], fun _ => true⟩ rfl,
   c6_download_error_kinds.2.1
     ⟨true, true, [Except.error "remote read failed"], fun _ => true⟩
     (SshError.IoError "remote read failed") rfl rfl⟩

theorem strCmp_gt_iff (x y : String) : strCmp x y = Ordering.gt ↔ y < x := by
  unfold strCmp
  rcases lt_trichotomy x y with h | h | h
  · simp [h, lt_asymm h]
  · simp [h, lt_irrefl]
  · simp [lt_asymm h, ne_of_gt h, h]

theorem entriesLe_true_iff (a b : FileEntry) :
    entriesLe a b = true ↔ ¬(entriesCmp a b = Ordering.gt) := by
  unfold entriesLe
  cases h : entriesCmp a b <;> decide

theorem entriesCmp_ff (a b : FileEntry) (ha : a.is_dir = false)
    (hb : b.is_dir = false) :
    entriesCmp a b = strCmp a.name.toLower b.name.toLower := by
  simp only [entriesCmp, ha, hb]

theorem entriesCmp_tt (a b : FileEntry) (ha : a.is_dir = true)
    (hb : b.is_dir = true) :
    entriesCmp a b = strCmp a.name.toLower b.name.toLower := by
  simp only [entriesCmp, ha, hb]

theorem entriesCmp_tf (a b : FileEntry) (ha : a.is_dir = true)
    (hb : b.is_dir = false) : entriesCmp a b = Ordering.lt := by
  simp only [entriesCmp, ha, hb]

theorem entriesCmp_ft (a b : FileEntry) (ha : a.is_dir = false)
    (hb : b.is_dir = true) : entriesCmp a b = Ordering.gt := by
  simp only [entriesCmp, ha, hb]

theorem entriesLe_not_gt (a b : FileEntry) (h : entriesLe a b = true)
    (hab : entriesCmp a b = Ordering.gt) : False :=
  (entriesLe_true_iff a b).mp h hab

theorem entriesLe_imp (a b : FileEntry) (h : entriesLe a b = true) :
    (a.is_dir = false → b.is_dir = false) ∧
    (a.is_dir = b.is_dir → a.name.toLower ≤ b.name.toLower) := by
  rw [entriesLe_true_iff] at h
  cases ha : a.is_dir <;> cases hb : b.is_dir
  · rw [entriesCmp_ff a b ha hb, strCmp_gt_iff] at h
    exact ⟨fun _ => rfl, fun _ => le_of_not_lt h⟩
  · exact absurd (entriesCmp_ft a b ha hb) h
  · exact ⟨fun _ => rfl, fun h' => absurd h' (by simp)⟩
  · rw [entriesCmp_tt a b ha hb, strCmp_gt_iff] at h
    exact ⟨fun h' => h', fun _ => le_of_not_lt h⟩

theorem entriesLe_trans (a b c : FileEntry) (hab : entriesLe a b = true)
    (hbc : entriesLe b c = true) : entriesLe a c = true := by
  rw [entriesLe_true_iff] at hab hbc ⊢
  cases ha : a.is_dir <;> cases hb : b.is_dir <;> cases hc : c.is_dir
  · rw [entriesCmp_ff a b ha hb, strCmp_gt_iff] at hab
    rw [entriesCmp_ff b c hb hc, strCmp_gt_iff] at hbc
    rw [entriesCmp_ff a c ha hc, strCmp_gt_iff]
    exact not_lt.mpr (le_trans (le_of_not_lt hab) (le_of_not_lt hbc))
  · exact absurd (entriesCmp_ft b c hb hc) hbc
  · exact absurd (entriesCmp_ft a b ha hb) hab
  · exact absurd (entriesCmp_ft a b ha hb) hab
  · rw [entriesCmp_tf a c ha hc]; simp
  · exact absurd (entriesCmp_ft b c hb hc) hbc
  · rw [entriesCmp_tf a c ha hc]; simp
  · rw [entriesCmp_tt a b ha hb, strCmp_gt_iff] at hab
    rw [entriesCmp_tt b c hb hc, strCmp_gt_iff] at hbc
    rw [entriesCmp_tt a c ha hc, strCmp_gt_iff]
    exact not_lt.mpr (le_trans (le_of_not_lt hab) (le_of_not_lt hbc))

theorem entriesLe_total (a b : FileEntry) :
    (entriesLe a b || entriesLe b a) = true := by
  rw [Bool.or_eq_true]
  cases ha : a.is_dir <;> cases hb : b.is_dir
  · by_cases h : a.name.toLower ≤ b.name.toLower
    · exact Or.inl ((entriesLe_true_iff a b).mpr (by
        rw [entriesCmp_ff a b ha hb, strCmp_gt_iff]; exact not_lt.mpr h))
    · exact Or.inr ((entriesLe_true_iff b a).mpr (by
        rw [entriesCmp_ff b a hb ha, strCmp_gt_iff]
        exact not_lt.mpr (le_of_lt (lt_of_not_le h))))
  · exact Or.inr ((entriesLe_true_iff b a).mpr (by
      rw [entriesCmp_tf b a hb ha]; simp))
  · exact Or.inl ((entriesLe_true_iff a b).mpr (by
      rw [entriesCmp_tf a b ha hb]; simp))
  · by_cases h : a.name.toLower ≤ b.name.toLower
    · exact Or.inl ((entriesLe_true_iff a b).mpr (by
        rw [entriesCmp_tt a b ha hb, strCmp_gt_iff]; exact not_lt.mpr h))
    · exact Or.inr ((entriesLe_true_iff b a).mpr (by
        rw [entriesCmp_tt b a hb ha, strCmp_gt_iff]
        exact not_lt.mpr (le_of_lt (lt_of_not_le h))))

/-- C9: the sorted entry list places every directory entry strictly before
every non-directory entry, orders each of the two groups ascending by
case-insensitive name, and is a permutation of the input entries. -/
theorem c9_sort_dirs_first :
    ∀ l : List FileEntry,
      (sortEntries l).Pairwise (fun a b =>
        (a.is_dir = false → b.is_dir = false) ∧
        (a.is_dir = b.is_dir → a.name.toLower ≤ b.name.toLower)) ∧
      (sortEntries l).Perm l := by
  intro l
  constructor
  · have hs := List.sorted_mergeSort entriesLe_trans entriesLe_total l
    exact List.Pairwise.imp (fun h => entriesLe_imp _ _ h) hs
  · exact List.mergeSort_perm l entriesLe

end OriSsh
